import Mathlib

/-!
# StudyFlow — verification of the exam grading and attempt-tracking core

Shallow embedding of the exam subsystem of the StudyFlow repository:
* the answer Response Parser (`backend/exam_generator.py`:
  `_parse_multiple_choice`, `_parse_true_false`, `_parse_short_answer`),
* the Grading Engine and Attempt Tracker
  (`backend/main.py`: `submit_exam`, `reset_exam_attempts`).

Python strings are modelled as Lean `String`s viewed as lists of
characters (`String.data`); the inputs of interest are ASCII apart from
the bullet `•` separator, for which Python's `str.lower`/`str.upper`
agree with the character-wise ASCII maps used here.  Python floating
point threshold tests of the form `int >= int * 0.3` are modelled by the
exact rational comparison (`10 * m ≥ 3 * n`): for the integer operands
these comparisons take, the double rounding error (`< 10⁻¹²`) never
crosses an integer, so the float and rational tests agree.
-/

namespace StudyFlow

/-- The characters Python's `str.strip()` / `str.split()` treat as
whitespace (space, tab, newline, carriage return, vertical tab, form feed). -/
def pySpace (c : Char) : Bool :=
  c = ' ' || c = '\t' || c = '\n' || c = '\r' || c = '\x0b' || c = '\x0c'

/-- Python `str.lower()` (character-wise; ASCII, which covers every input
the grading code compares). -/
def pyLower (s : String) : String :=
  String.mk (s.data.map Char.toLower)

/-- Python `str.upper()` (character-wise ASCII). -/
def pyUpper (s : String) : String :=
  String.mk (s.data.map Char.toUpper)

/-- Python `str.strip()`: remove leading and trailing whitespace. -/
def pyStrip (s : String) : String :=
  String.mk (((s.data.dropWhile pySpace).reverse.dropWhile pySpace).reverse)

/-- Helper for `pySplitChar`: split a character list at every occurrence of
`sep`, keeping empty fragments (Python `str.split(sep)` semantics). -/
def splitCharAux (sep : Char) : List Char → List Char → List String
  | [], acc => [String.mk acc.reverse]
  | c :: rest, acc =>
    if c = sep then String.mk acc.reverse :: splitCharAux sep rest []
    else splitCharAux sep rest (c :: acc)

/-- Python `str.split(sep)` for a one-character separator: empty fragments
are kept, and the result always has at least one element. -/
def pySplitChar (sep : Char) (s : String) : List String :=
  splitCharAux sep s.data []

/-- Helper for `pyWords`: split on whitespace runs, dropping empty fragments. -/
def wordsAux : List Char → List Char → List String
  | [], [] => []
  | [], acc => [String.mk acc.reverse]
  | c :: rest, acc =>
    if pySpace c then
      match acc with
      | [] => wordsAux rest []
      | _ => String.mk acc.reverse :: wordsAux rest []
    else wordsAux rest (c :: acc)

/-- Python `str.split()` with no argument: split on runs of whitespace,
with no empty fragments. -/
def pyWords (s : String) : List String :=
  wordsAux s.data []

/-- Helper for `pyInSub` on character lists. -/
def inSubAux (needle : List Char) : List Char → Bool
  | [] => needle.isPrefixOf []
  | c :: rest => needle.isPrefixOf (c :: rest) || inSubAux needle rest

/-- Python's substring test `needle in hay`. -/
def pyInSub (needle hay : String) : Bool :=
  inSubAux needle.data hay.data

/-- The distinct elements of a list of words (Python `set(...)`: only
cardinality and membership of the result are ever used). -/
def uniq : List String → List String
  | [] => []
  | w :: rest =>
    let r := uniq rest
    if r.contains w then r else w :: r

/-- A value submitted as an answer, as delivered by the JSON body of the
submission request: absent/null, a JSON boolean, or a string. -/
inductive PyValue where
  | none
  | bool (b : Bool)
  | str (s : String)
deriving DecidableEq, Repr

/-- Python `str(value)` on a submitted answer value. -/
def pyStr : PyValue → String
  | .none => "None"
  | .bool true => "True"
  | .bool false => "False"
  | .str s => s

/-- Python truthiness of a submitted answer value. -/
def pyTruthy : PyValue → Bool
  | .none => false
  | .bool b => b
  | .str s => s != ""

/-- A question record, as stored in an exam file (tagged union over the
three question kinds produced by `exam_generator.py`). -/
inductive Question where
  | multiple_choice (question : String) (options : List (Char × String))
      (correct_answer : String) (explanation : String)
  | true_false (question : String) (correct_answer : Bool) (explanation : String)
  | short_answer (question : String) (sample_answer : String) (key_points : String)
deriving DecidableEq, Repr

/-! ## Short-answer grading (`submit_exam`, `main.py` lines 1182–1219) -/

/-- The normalization `user_lower` / `correct_lower` in `submit_exam`:
`str(x).lower().strip()`. -/
def normalizeText (s : String) : String :=
  pyStrip (pyLower s)

/-- The separator-selection loop of `submit_exam`: the first of
`,`, `;`, `•`, `-` (in that fixed order) that occurs in the key-points
text, if any. -/
def firstSeparator (key_points : String) : Option Char :=
  if key_points.data.contains ',' then some ','
  else if key_points.data.contains ';' then some ';'
  else if key_points.data.contains '•' then some '•'
  else if key_points.data.contains '-' then some '-'
  else none

/-- The `key_point_list` computation in `submit_exam`: split the key-points text on the
first separator found (empty list when the text is empty or has no
separator), strip each fragment, drop empty fragments, then drop
fragments of length ≤ 3. -/
def keyPointList (key_points : String) : List String :=
  let raw :=
    if key_points ≠ "" then
      match firstSeparator key_points with
      | some sep => ((pySplitChar sep key_points).map pyStrip).filter (fun p => p ≠ "")
      | Option.none => []
    else []
  raw.filter (fun p => p.length > 3)

/-- The number of key points whose lowercased text occurs as a substring
of the normalized submission (`matches` in `submit_exam`). -/
def keyPointMatches (kps : List String) (user_lower : String) : Nat :=
  (kps.filter (fun p => pyInSub (pyLower p) user_lower)).length

/-- The `has_key_points` flag in `submit_exam`: false when no key points survive
filtering, otherwise the test `matches >= len(key_point_list) * 0.3`
(written as the exact rational comparison). -/
def hasKeyPoints (key_points user_lower : String) : Bool :=
  let kps := keyPointList key_points
  if kps.isEmpty then false
  else decide (3 * kps.length ≤ 10 * keyPointMatches kps user_lower)

/-- The count `len(sample_words)` in `submit_exam`: the number of distinct
whitespace-separated words of the normalized sample answer. -/
def sampleWordCount (correct_lower : String) : Nat :=
  (uniq (pyWords correct_lower)).length

/-- The `overlap` count in `submit_exam`: the size of the intersection of the two
word sets. -/
def wordOverlapCount (correct_lower user_lower : String) : Nat :=
  ((uniq (pyWords correct_lower)).filter
    (fun w => (pyWords user_lower).contains w)).length

/-- The word-overlap test of `submit_exam`:
`overlap >= len(sample_words) * 0.2` (exact rational comparison). -/
def wordOverlapOk (correct_lower user_lower : String) : Bool :=
  decide (sampleWordCount correct_lower ≤ 5 * wordOverlapCount correct_lower user_lower)

/-- Short-answer grading in `submit_exam` (reached when both the
submitted answer and the sample answer are truthy): normalize both
texts, reject submissions whose normalized length is under 10, otherwise
accept iff the word-overlap test or the key-point test succeeds. -/
def gradeShortAnswer (user_answer sample_answer key_points : String) : Bool :=
  let user_lower := normalizeText user_answer
  let correct_lower := normalizeText sample_answer
  if user_lower.length < 10 then false
  else wordOverlapOk correct_lower user_lower || hasKeyPoints key_points user_lower

/-- Per-question grading dispatch of `submit_exam` (`main.py`
lines 1168–1219). -/
def gradeQuestion (q : Question) (user_answer : PyValue) : Bool :=
  match q with
  | .true_false _ correct _ =>
    match user_answer with
    | .bool b => b == correct
    | ua => pyLower (pyStr ua) == pyLower (pyStr (.bool correct))
  | .multiple_choice _ _ correct _ =>
    pyUpper (pyStr user_answer) == pyUpper correct
  | .short_answer _ sample key_points =>
    if pyTruthy user_answer && pyTruthy (.str sample) then
      gradeShortAnswer (pyStr user_answer) sample key_points
    else false

/-! ## Response Parser (`exam_generator.py` lines 216–330)

All three parsers split the raw model output with
`re.split(r'\n\s*Q:\s*', text)`.  The pattern is deterministic: a match
starts at a newline, greedily skips whitespace, requires `Q:`, then
greedily skips trailing whitespace; `re.split` takes leftmost
non-overlapping matches. -/

/-- Try to match the tail of the separator regex `\s*Q:\s*` at the
character list following a newline; on success return the input
remaining after the whole match. -/
def trySepQ (l : List Char) : Option (List Char) :=
  match l.dropWhile pySpace with
  | 'Q' :: ':' :: rest => some (rest.dropWhile pySpace)
  | _ => Option.none

theorem length_dropWhile_le (p : Char → Bool) (l : List Char) :
    (l.dropWhile p).length ≤ l.length := by
  induction l with
  | nil => simp [List.dropWhile]
  | cons c rest ih =>
    by_cases h : p c
    · simp only [List.dropWhile, h]
      exact le_trans ih (by simp)
    · simp [List.dropWhile, h]

theorem trySepQ_length {l r : List Char} (h : trySepQ l = some r) :
    r.length ≤ l.length := by
  unfold trySepQ at h
  split at h
  case _ rest heq =>
    have h1 : r.length ≤ rest.length := by
      cases h; exact length_dropWhile_le _ _
    have h2 : ('Q' :: ':' :: rest).length ≤ l.length := by
      rw [← heq]; exact length_dropWhile_le _ _
    simp at h2; omega
  case _ => exact absurd h (by simp)

/-- Worker for `splitQSections`, written with explicit fuel so that it is
structurally recursive (and hence evaluates inside the kernel); the fuel
branch is unreachable when the fuel exceeds the input length, since each
step consumes at least one character. -/
def splitQGo : Nat → List Char → List Char → List String
  | 0, l, acc => [String.mk (acc.reverse ++ l)]
  | _ + 1, [], acc => [String.mk acc.reverse]
  | fuel + 1, c :: rest, acc =>
    if c = '\n' then
      match trySepQ rest with
      | some rest2 => String.mk acc.reverse :: splitQGo fuel rest2 []
      | Option.none => splitQGo fuel rest (c :: acc)
    else splitQGo fuel rest (c :: acc)

/-- Model of `re.split(r'\n\s*Q:\s*', text)`: the list of segments between the
question markers (always non-empty; the first segment is the preamble). -/
def splitQSections (text : String) : List String :=
  splitQGo (text.length + 1) text.data []

/-- Everything after the first `:` of a line (`line.split(':', 1)[1]`;
all call sites guard with a `startswith` check on a prefix that contains
a colon, so a colon is always present). -/
def afterFirstColon (s : String) : String :=
  go s.data
where
  go : List Char → String
    | [] => ""
    | ':' :: rest => String.mk rest
    | _ :: rest => go rest

/-- Python `line.startswith(prefixStr)`. -/
def pyStartsWith (prefixStr s : String) : Bool :=
  prefixStr.data.isPrefixOf s.data

/-- Accumulator state of the line loop of `_parse_multiple_choice`:
the `options` dict (keys can only be `A`–`D`), the correct letter found
so far, and the explanation. -/
structure MCAcc where
  optA : Option String := Option.none
  optB : Option String := Option.none
  optC : Option String := Option.none
  optD : Option String := Option.none
  correct : Option Char := Option.none
  explanation : String := ""
deriving DecidableEq, Repr

/-- The dict size `len(options)`: the number of option keys present. -/
def MCAcc.optCount (st : MCAcc) : Nat :=
  (if st.optA.isSome then 1 else 0) + (if st.optB.isSome then 1 else 0)
    + (if st.optC.isSome then 1 else 0) + (if st.optD.isSome then 1 else 0)

/-- The dict update `options[letter] = text` for a letter known to be in `A`–`D`. -/
def MCAcc.setOpt (st : MCAcc) (letter : Char) (txt : String) : MCAcc :=
  if letter = 'A' then { st with optA := some txt }
  else if letter = 'B' then { st with optB := some txt }
  else if letter = 'C' then { st with optC := some txt }
  else { st with optD := some txt }

/-- The `options` dict as an association list (a Python dict is a map;
only its key set and values are observable to the rest of the code). -/
def MCAcc.options (st : MCAcc) : List (Char × String) :=
  (match st.optA with | some t => [('A', t)] | Option.none => [])
    ++ (match st.optB with | some t => [('B', t)] | Option.none => [])
    ++ (match st.optC with | some t => [('C', t)] | Option.none => [])
    ++ (match st.optD with | some t => [('D', t)] | Option.none => [])

/-- One iteration of the line loop of `_parse_multiple_choice`.
`Option.none` models the `IndexError` raised by
`line.split(':', 1)[1].strip().upper()[0]` when the text after
`CORRECT:` strips to empty — the surrounding `try/except` then drops the
whole section. -/
def mcProcessLine (st : MCAcc) (rawLine : String) : Option MCAcc :=
  let line := pyStrip rawLine
  match line.data with
  | c1 :: ')' :: restChars =>
    if c1 = 'A' || c1 = 'B' || c1 = 'C' || c1 = 'D' then
      some (st.setOpt c1 (pyStrip (String.mk restChars)))
    else mcMarkerLine st line
  | _ => mcMarkerLine st line
where
  mcMarkerLine (st : MCAcc) (line : String) : Option MCAcc :=
    if pyStartsWith "CORRECT:" line then
      match (pyUpper (pyStrip (afterFirstColon line))).data with
      | [] => Option.none
      | c :: _ => some { st with correct := some c }
    else if pyStartsWith "EXPLANATION:" line then
      some { st with explanation := pyStrip (afterFirstColon line) }
    else some st

/-- Parse one section of `_parse_multiple_choice`: first line (after
stripping the section) is the question text; remaining lines feed the
line loop; the section is accepted only when the question text is
non-empty, exactly 4 options were found, and a correct letter was found. -/
def parseMCSection (sec : String) : Option Question :=
  match pySplitChar '\n' (pyStrip sec) with
  | [] => Option.none
  | qline :: rest =>
    let question_text := pyStrip qline
    match rest.foldlM mcProcessLine {} with
    | Option.none => Option.none
    | some st =>
      match st.correct with
      | some c =>
        if question_text ≠ "" ∧ st.optCount = 4 then
          some (.multiple_choice question_text st.options (String.mk [c]) st.explanation)
        else Option.none
      | Option.none => Option.none

/-- Model of `_parse_multiple_choice`: split on the question marker, drop the
preamble, parse each section, silently dropping malformed ones. -/
def parseMultipleChoice (text : String) : List Question :=
  ((splitQSections text).tail).filterMap parseMCSection

/-- Accumulator state of the line loop of `_parse_true_false`. -/
structure TFAcc where
  answer : Option Bool := Option.none
  explanation : String := ""
deriving DecidableEq, Repr

/-- One iteration of the line loop of `_parse_true_false`: an `ANSWER:`
line yields the boolean `'TRUE' in value.upper()`. -/
def tfProcessLine (st : TFAcc) (rawLine : String) : TFAcc :=
  let line := pyStrip rawLine
  if pyStartsWith "ANSWER:" line then
    { st with answer := some (pyInSub "TRUE" (pyUpper (pyStrip (afterFirstColon line)))) }
  else if pyStartsWith "EXPLANATION:" line then
    { st with explanation := pyStrip (afterFirstColon line) }
  else st

/-- Parse one section of `_parse_true_false`; accepted when the question
text is non-empty and an `ANSWER:` line was seen (`answer is not None`). -/
def parseTFSection (sec : String) : Option Question :=
  match pySplitChar '\n' (pyStrip sec) with
  | [] => Option.none
  | qline :: rest =>
    let question_text := pyStrip qline
    let st := rest.foldl tfProcessLine {}
    match st.answer with
    | some b =>
      if question_text ≠ "" then some (.true_false question_text b st.explanation)
      else Option.none
    | Option.none => Option.none

/-- Model of `_parse_true_false`. -/
def parseTrueFalse (text : String) : List Question :=
  ((splitQSections text).tail).filterMap parseTFSection

/-- Accumulator state of the line loop of `_parse_short_answer`. -/
structure SAAcc where
  sample_answer : String := ""
  key_points : String := ""
deriving DecidableEq, Repr

/-- One iteration of the line loop of `_parse_short_answer`. -/
def saProcessLine (st : SAAcc) (rawLine : String) : SAAcc :=
  let line := pyStrip rawLine
  if pyStartsWith "SAMPLE_ANSWER:" line then
    { st with sample_answer := pyStrip (afterFirstColon line) }
  else if pyStartsWith "KEY_POINTS:" line then
    { st with key_points := pyStrip (afterFirstColon line) }
  else st

/-- Parse one section of `_parse_short_answer`; accepted when the
question text and the sample answer are both non-empty. -/
def parseSASection (sec : String) : Option Question :=
  match pySplitChar '\n' (pyStrip sec) with
  | [] => Option.none
  | qline :: rest =>
    let question_text := pyStrip qline
    let st := rest.foldl saProcessLine {}
    if question_text ≠ "" ∧ st.sample_answer ≠ "" then
      some (.short_answer question_text st.sample_answer st.key_points)
    else Option.none

/-- Model of `_parse_short_answer`. -/
def parseShortAnswer (text : String) : List Question :=
  ((splitQSections text).tail).filterMap parseSASection

/-! ## Attempt tracking (`submit_exam` and `reset_exam_attempts`,
`main.py` lines 1142–1305) -/

/-- One attempt record, as appended to `exam_data['attempts']`. -/
structure Attempt where
  timestamp : String
  score : Nat
  total : Nat
  percentage : Nat
deriving DecidableEq, Repr

/-- A persisted exam record.  `attempts = Option.none` models a record in
which the `attempts` key is absent (`if 'attempts' not in exam_data`);
`extra` stands for every further key of the JSON document, none of which
the submission or reset code reads or writes. -/
structure ExamData where
  id : String
  title : String
  course : String
  exam_type : String
  questions : List Question
  created_at : String
  attempts : Option (List Attempt)
  best_score : Option Nat
  attempt_count : Nat
  last_attempt : Option String
  extra : List (String × String)
deriving DecidableEq, Repr

/-- The body returned by the submit endpoint (the persisted fields are on
the updated `ExamData`). -/
structure SubmitResponse where
  score : Nat
  total : Nat
  percentage : Nat
  best_score : Nat
  attempt_number : Nat
  improved : Bool
deriving DecidableEq, Repr

/-- The `correct_count` of `submit_exam`: the number of questions, taken by
position, whose looked-up answer grades correct
(`user_answers.get(str(idx))`; an absent index yields `None`). -/
def correctCount (qs : List Question) (ans : Nat → PyValue) : Nat :=
  (qs.enum.filter (fun p => gradeQuestion p.2 (ans p.1))).length

/-- Python's `round` on the exact value `num / den` (`den > 0`): round
half to even (banker's rounding).  For the operand ranges reached here
the float expression `round((correct_count / total) * 100)` computes the
same value. -/
def pyRoundHalfEven (num den : Nat) : Nat :=
  let q := num / den
  let r := num % den
  if 2 * r < den then q
  else if den < 2 * r then q + 1
  else if q % 2 = 0 then q else q + 1

/-- The rule `percentage = round((correct_count / total) * 100) if total > 0 else 0`. -/
def examPercentage (score total : Nat) : Nat :=
  if total > 0 then pyRoundHalfEven (score * 100) total else 0

/-- The attempt record built by one call of `submit_exam` against a given
question list. -/
def attemptOf (qs : List Question) (ans : Nat → PyValue) (now : String) : Attempt :=
  { timestamp := now
    score := correctCount qs ans
    total := qs.length
    percentage := examPercentage (correctCount qs ans) qs.length }

/-- Python `max(a['percentage'] for a in attempts)` for the (always non-empty)
updated attempt list; on `Nat`, folding `max` from `0` returns the
maximum of a non-empty list. -/
def maxPercentage (l : List Attempt) : Nat :=
  (l.map Attempt.percentage).foldl max 0

/-- The state-and-response transformer of `submit_exam` after grading:
append the new attempt (creating the list if absent), recompute
`best_score`, `attempt_count` and `last_attempt`, and build the response
body, whose `improved` flag compares the new percentage against the
recomputed best score only from the second attempt on. -/
def submitExam (e : ExamData) (ans : Nat → PyValue) (now : String) :
    ExamData × SubmitResponse :=
  let qs := e.questions
  let cc := correctCount qs ans
  let total := qs.length
  let percentage := examPercentage cc total
  let attempt := attemptOf qs ans now
  let attempts2 := e.attempts.getD [] ++ [attempt]
  let best := if attempts2 ≠ [] then maxPercentage attempts2 else percentage
  ({ e with
      attempts := some attempts2
      best_score := some best
      attempt_count := attempts2.length
      last_attempt := some now },
   { score := cc
     total := total
     percentage := percentage
     best_score := best
     attempt_number := attempts2.length
     improved := if attempts2.length > 1 then decide (best ≤ percentage) else false })

/-- Model of `reset_exam_attempts` (`main.py` lines 1291–1300): clear the history
fields and leave everything else alone. -/
def resetExamAttempts (e : ExamData) : ExamData :=
  { e with
      attempts := some []
      best_score := Option.none
      attempt_count := 0
      last_attempt := Option.none }

/-- A sequence of submissions (answer map and timestamp each) against one
exam record, with no reset in between. -/
def submitFold (e : ExamData) (subs : List ((Nat → PyValue) × String)) : ExamData :=
  subs.foldl (fun acc s => (submitExam acc s.1 s.2).1) e

/-! ## Spec-side definitions

Definitions that follow the specification's words where they differ from
(or are compared against) the code; each is named `spec...`. -/

/-- The true/false grading rule for non-boolean submissions as §4.4 of
the spec states it: coerce to string and apply the `"TRUE"`-token-presence
logic of the parser (§4.1), i.e. parse the submission to the boolean
`'TRUE' in value.upper()` and compare with the stored boolean. -/
def specTrueFalseGrade (ua : PyValue) (correct : Bool) : Bool :=
  match ua with
  | .bool b => b == correct
  | other => pyInSub "TRUE" (pyUpper (pyStr other)) == correct

/-- Python's built-in `round` to the nearest integer, ties to even
(banker's rounding), on an exact rational. -/
def roundHalfEvenQ (x : ℚ) : ℤ :=
  if Int.fract x < 1 / 2 then ⌊x⌋
  else if 1 / 2 < Int.fract x then ⌊x⌋ + 1
  else if ⌊x⌋ % 2 = 0 then ⌊x⌋ else ⌊x⌋ + 1

/-! ## Supporting lemmas -/

theorem pyLower_length (s : String) : (pyLower s).length = s.length := by
  cases s with
  | mk data => simp [pyLower]

theorem pyStrip_length_le (s : String) : (pyStrip s).length ≤ s.length := by
  cases s with
  | mk data =>
    simp only [pyStrip, String.length_mk]
    calc (((data.dropWhile pySpace).reverse.dropWhile pySpace).reverse).length
        = ((data.dropWhile pySpace).reverse.dropWhile pySpace).length := by
          simp
      _ ≤ (data.dropWhile pySpace).reverse.length := length_dropWhile_le _ _
      _ = (data.dropWhile pySpace).length := by simp
      _ ≤ data.length := length_dropWhile_le _ _

theorem normalizeText_length_le (s : String) :
    (normalizeText s).length ≤ s.length := by
  calc (normalizeText s).length ≤ (pyLower s).length := pyStrip_length_le _
    _ = s.length := pyLower_length s

theorem maxPercentage_append (l : List Attempt) (a : Attempt) :
    maxPercentage (l ++ [a]) = max (maxPercentage l) a.percentage := by
  simp [maxPercentage, List.foldl_append]

/-- The updated attempt list of a submission is always non-empty, so the
`best_score` written by `submitExam` is the maximum percentage over the
updated history. -/
theorem submitExam_best_score (e : ExamData) (ans : Nat → PyValue) (now : String) :
    (submitExam e ans now).1.best_score =
      some (maxPercentage (e.attempts.getD [] ++ [attemptOf e.questions ans now])) := by
  simp [submitExam]

/-! ## Claims -/

/-- C5: for every short-answer question, any submitted answer whose text
is shorter than 10 characters is graded incorrect, regardless of sample
answer and key points (the code tests the length of the lowercased,
stripped text, which never exceeds the raw length). -/
theorem short_answer_trivial_guard (qt sample kp : String) (ua : PyValue)
    (h : (pyStr ua).length < 10) :
    gradeQuestion (.short_answer qt sample kp) ua = false := by
  show (if pyTruthy ua && pyTruthy (.str sample) then
      gradeShortAnswer (pyStr ua) sample kp else false) = false
  cases htr : pyTruthy ua && pyTruthy (.str sample)
  · simp
  · have hlen : (normalizeText (pyStr ua)).length < 10 :=
      lt_of_le_of_lt (normalizeText_length_le _) h
    simp only [if_true]
    show gradeShortAnswer (pyStr ua) sample kp = false
    unfold gradeShortAnswer
    rw [if_pos hlen]

/-- Witness for C5: the 4-character submission `"cell"` is graded
incorrect even though it is a substring of the sample answer. -/
theorem short_answer_trivial_guard_witness :
    gradeQuestion (.short_answer "Q" "cell membrane transport" "cell, membrane") (.str "cell")
      = false :=
  short_answer_trivial_guard "Q" "cell membrane transport" "cell, membrane"
    (.str "cell") (by decide)

/-- C2 counterexample: the claim says non-boolean submissions are graded
by the parser's `"TRUE"`-token-presence logic, but the code compares the
lowercased string form for equality: the submission `"it is true"`
contains the token `TRUE`, so the claim grades it correct against stored
`true`, while the code grades it incorrect. -/
theorem tf_token_presence_counterexample :
    gradeQuestion (.true_false "The statement holds." true "") (.str "it is true") = false ∧
    specTrueFalseGrade (.str "it is true") true = true := by
  exact ⟨rfl, rfl⟩

/-- C2 (amended): a native-boolean submission is compared directly with
the stored boolean; any other submission is coerced with `str()` and
compared for *case-insensitive equality* with the string form of the
stored boolean (`"true"`/`"false"`), not by token presence.  In
particular `"True"` and native `true` grade correct against stored
`true`, and `"yes"` grades incorrect. -/
theorem tf_equality_grading :
    (∀ (b c : Bool) (q ex : String),
      gradeQuestion (.true_false q c ex) (.bool b) = (b == c)) ∧
    (∀ (s q ex : String) (c : Bool),
      gradeQuestion (.true_false q c ex) (.str s)
        = (pyLower s == (if c then "true" else "false"))) ∧
    gradeQuestion (.true_false "s" true "") (.str "True") = true ∧
    gradeQuestion (.true_false "s" true "") (.bool true) = true ∧
    gradeQuestion (.true_false "s" true "") (.str "yes") = false := by
  refine ⟨fun b c q ex => rfl, fun s q ex c => ?_, rfl, rfl, rfl⟩
  cases c <;> rfl

/-- C4: the `improved` flag of a submission response is true exactly when
the attempt count after the submission exceeds 1 and the new percentage
is at least the pre-update best score (the maximum percentage over the
prior attempt history); in particular the first attempt — including the
first attempt after a reset — is never flagged improved.  (The code
compares against the *post*-update best score, which coincides with this
because the recomputed best is the maximum of the prior best and the new
percentage.) -/
theorem improved_flag :
    (∀ (e : ExamData) (ans : Nat → PyValue) (now : String),
      (submitExam e ans now).2.improved =
        (decide (1 < (submitExam e ans now).2.attempt_number) &&
         decide (maxPercentage (e.attempts.getD [])
           ≤ (submitExam e ans now).2.percentage))) ∧
    (∀ (e : ExamData) (ans : Nat → PyValue) (now : String),
      (submitExam (resetExamAttempts e) ans now).2.improved = false) := by
  have key : ∀ (e : ExamData) (ans : Nat → PyValue) (now : String),
      (submitExam e ans now).2.improved =
        (decide (1 < (submitExam e ans now).2.attempt_number) &&
         decide (maxPercentage (e.attempts.getD [])
           ≤ (submitExam e ans now).2.percentage)) := by
    intro e ans now
    have h1 : (submitExam e ans now).2.attempt_number
        = (e.attempts.getD []).length + 1 := by
      simp [submitExam]
    have h2 : (submitExam e ans now).2.percentage
        = (attemptOf e.questions ans now).percentage := rfl
    have h3 : (submitExam e ans now).2.improved =
        (if (e.attempts.getD []).length + 1 > 1 then
          decide (maxPercentage (e.attempts.getD [] ++ [attemptOf e.questions ans now])
            ≤ (attemptOf e.questions ans now).percentage)
        else false) := by
      simp only [submitExam]
      rw [if_pos (show e.attempts.getD [] ++ [attemptOf e.questions ans now] ≠ [] by simp)]
      simp only [List.length_append, List.length_cons, List.length_nil]
      rfl
    rw [h3, h1, h2]
    generalize e.attempts.getD [] = l
    cases l with
    | nil => simp
    | cons x xs =>
      rw [if_pos (by simp), maxPercentage_append]
      have ht : decide (1 < (x :: xs).length + 1) = true := by simp
      rw [ht, Bool.true_and, decide_eq_decide, max_le_iff]
      simp
  refine ⟨key, fun e ans now => ?_⟩
  rw [key]
  have : (submitExam (resetExamAttempts e) ans now).2.attempt_number = 1 := rfl
  rw [this]
  simp

/-- C9: a submission touches only the history fields — it appends exactly
one attempt, preserving every prior attempt, and recomputes `best_score`,
`attempt_count` and `last_attempt` — and a reset sets `attempts` to `[]`,
`best_score` to null, `attempt_count` to `0` and `last_attempt` to null;
both leave `id`, `title`, `course`, `exam_type`, `questions`,
`created_at` and every other field (`extra`) unchanged. -/
theorem submit_reset_frame :
    (∀ (e : ExamData) (ans : Nat → PyValue) (now : String),
      (submitExam e ans now).1.id = e.id ∧
      (submitExam e ans now).1.title = e.title ∧
      (submitExam e ans now).1.course = e.course ∧
      (submitExam e ans now).1.exam_type = e.exam_type ∧
      (submitExam e ans now).1.questions = e.questions ∧
      (submitExam e ans now).1.created_at = e.created_at ∧
      (submitExam e ans now).1.extra = e.extra ∧
      (submitExam e ans now).1.attempts
        = some (e.attempts.getD [] ++ [attemptOf e.questions ans now]) ∧
      (submitExam e ans now).1.best_score
        = some (maxPercentage (e.attempts.getD [] ++ [attemptOf e.questions ans now])) ∧
      (submitExam e ans now).1.attempt_count = (e.attempts.getD []).length + 1 ∧
      (submitExam e ans now).1.last_attempt = some now) ∧
    (∀ e : ExamData,
      (resetExamAttempts e).attempts = some [] ∧
      (resetExamAttempts e).best_score = Option.none ∧
      (resetExamAttempts e).attempt_count = 0 ∧
      (resetExamAttempts e).last_attempt = Option.none ∧
      (resetExamAttempts e).id = e.id ∧
      (resetExamAttempts e).title = e.title ∧
      (resetExamAttempts e).course = e.course ∧
      (resetExamAttempts e).exam_type = e.exam_type ∧
      (resetExamAttempts e).questions = e.questions ∧
      (resetExamAttempts e).created_at = e.created_at ∧
      (resetExamAttempts e).extra = e.extra) := by
  constructor
  · intro e ans now
    refine ⟨rfl, rfl, rfl, rfl, rfl, rfl, rfl, rfl, submitExam_best_score e ans now, ?_, rfl⟩
    simp [submitExam]
  · intro e
    exact ⟨rfl, rfl, rfl, rfl, rfl, rfl, rfl, rfl, rfl, rfl, rfl⟩

/-- The function `pyRoundHalfEven` agrees with round-half-to-even on the exact
rational `num / den`. -/
theorem pyRoundHalfEven_eq_roundQ (num den : Nat) (hden : 0 < den) :
    (pyRoundHalfEven num den : ℤ) = roundHalfEvenQ ((num : ℚ) / (den : ℚ)) := by
  have hd0 : (0 : ℚ) < (den : ℚ) := by exact_mod_cast hden
  have hfloor : ⌊((num : ℚ) / (den : ℚ))⌋ = ((num / den : ℕ) : ℤ) := by
    rw [← Int.natCast_floor_eq_floor (by positivity)]
    exact_mod_cast congrArg (Nat.cast : ℕ → ℤ) (Nat.floor_div_eq_div (α := ℚ) num den)
  have hqr : (num : ℚ) = (den : ℚ) * ((num / den : ℕ) : ℚ) + ((num % den : ℕ) : ℚ) := by
    exact_mod_cast (Nat.div_add_mod num den).symm
  have hfract : Int.fract ((num : ℚ) / (den : ℚ))
      = ((num % den : ℕ) : ℚ) / (den : ℚ) := by
    rw [Int.fract, hfloor, sub_eq_iff_eq_add, Int.cast_natCast]
    field_simp
    linarith [hqr]
  have hlt : Int.fract ((num : ℚ) / (den : ℚ)) < 1 / 2 ↔ 2 * (num % den) < den := by
    rw [hfract, div_lt_div_iff₀ hd0 (by norm_num), one_mul]
    norm_cast
    omega
  have hgt : (1 / 2 : ℚ) < Int.fract ((num : ℚ) / (den : ℚ)) ↔ den < 2 * (num % den) := by
    rw [hfract, div_lt_div_iff₀ (by norm_num) hd0, one_mul]
    norm_cast
    omega
  unfold pyRoundHalfEven roundHalfEvenQ
  simp only [hfloor, hlt, hgt]
  split_ifs <;> push_cast <;> omega

/-- A 9-question exam record (all true/false with stored answer `true`),
used as a concrete grading input. -/
def exam9 : ExamData :=
  { id := "e9", title := "T", course := "C", exam_type := "true_false"
    questions := List.replicate 9 (.true_false "s" true "")
    created_at := "c", attempts := Option.none, best_score := Option.none
    attempt_count := 0, last_attempt := Option.none, extra := [] }

/-- An exam record with an empty question list. -/
def examEmpty : ExamData :=
  { id := "e0", title := "T", course := "C", exam_type := "mixed"
    questions := [], created_at := "c", attempts := Option.none
    best_score := Option.none, attempt_count := 0
    last_attempt := Option.none, extra := [] }

/-- An answer map that answers the first 7 questions correctly and the
rest incorrectly. -/
def ans7 : Nat → PyValue := fun i => .bool (decide (i < 7))

/-- C6: the aggregate percentage of a graded submission is
`round(correct / total * 100)` under round-half-to-even (Python `round`)
whenever the exam has questions; 7 correct out of 9 yields 78; and an
exam with an empty question list yields percentage 0 (the guard avoids
the division). -/
theorem aggregate_percentage :
    (∀ (e : ExamData) (ans : Nat → PyValue) (now : String), e.questions ≠ [] →
      ((submitExam e ans now).2.percentage : ℤ)
        = roundHalfEvenQ ((correctCount e.questions ans : ℚ)
            / (e.questions.length : ℚ) * 100)) ∧
    (∀ (e : ExamData) (ans : Nat → PyValue) (now : String), e.questions = [] →
      (submitExam e ans now).2.percentage = 0) ∧
    (submitExam exam9 ans7 "t").2.percentage = 78 := by
  refine ⟨?_, ?_, by decide⟩
  · intro e ans now hne
    have hpos : 0 < e.questions.length := List.length_pos.mpr hne
    have hshow : (submitExam e ans now).2.percentage
        = examPercentage (correctCount e.questions ans) e.questions.length := rfl
    rw [hshow]
    unfold examPercentage
    rw [if_pos hpos, pyRoundHalfEven_eq_roundQ _ _ hpos]
    congr 1
    push_cast
    ring
  · intro e ans now hnil
    have hshow : (submitExam e ans now).2.percentage
        = examPercentage (correctCount e.questions ans) e.questions.length := rfl
    rw [hshow, hnil]
    rfl

/-- Witness for C6: both hypothesized parts applied at concrete exams. -/
theorem aggregate_percentage_witness :
    ((submitExam exam9 ans7 "t").2.percentage : ℤ)
      = roundHalfEvenQ ((correctCount exam9.questions ans7 : ℚ)
          / (exam9.questions.length : ℚ) * 100) ∧
    (submitExam examEmpty (fun _ => PyValue.none) "t").2.percentage = 0 :=
  ⟨aggregate_percentage.1 exam9 ans7 "t" (by decide),
   aggregate_percentage.2.1 examEmpty (fun _ => PyValue.none) "t" rfl⟩

/-- Shared helper: for a truthy submission with normalized length ≥ 10
against a truthy sample answer, short-answer grading is exactly the
disjunction of the word-overlap test and the key-point test (in the
code's order). -/
theorem gradeShortAnswer_eq_or (qt sample kp ua : String)
    (hua : ua ≠ "") (hsa : sample ≠ "")
    (h10 : 10 ≤ (normalizeText ua).length) :
    gradeQuestion (.short_answer qt sample kp) (.str ua)
      = (wordOverlapOk (normalizeText sample) (normalizeText ua)
          || hasKeyPoints kp (normalizeText ua)) := by
  have htr : (pyTruthy (.str ua) && pyTruthy (.str sample)) = true := by
    simp [pyTruthy, hua, hsa]
  show (if pyTruthy (.str ua) && pyTruthy (.str sample) then
      gradeShortAnswer (pyStr (.str ua)) sample kp else false) = _
  rw [htr, if_pos rfl]
  show gradeShortAnswer ua sample kp = _
  unfold gradeShortAnswer
  rw [if_neg (by omega)]

/-- The 7-word sample answer of the word-overlap boundary example, with
empty key points (so only the word-overlap path can fire). -/
def saBoundary : Question :=
  .short_answer "Explain energy production."
    "the mitochondria produces energy via cellular respiration" ""

/-- C1: for a short-answer question and a submission of (normalized)
length ≥ 10, the answer is graded correct iff the key-point path
(`hasKeyPoints`: split the stored key points on the first separator
among `,`, `;`, `•`, `-` in that priority order, discard fragments of
length ≤ 3, require ≥ 30% of the rest to occur case-insensitively in the
submission) or the word-overlap path (`wordOverlapOk`: intersection of
the lowercased word sets at least 20% of the sample's word-set size)
succeeds; for the 7-word sample answer, sharing 2 words grades correct
and sharing exactly 1 word grades incorrect. -/
theorem short_answer_two_paths :
    (∀ (qt sample kp ua : String), ua ≠ "" → sample ≠ "" →
      10 ≤ (normalizeText ua).length →
      gradeQuestion (.short_answer qt sample kp) (.str ua)
        = (hasKeyPoints kp (normalizeText ua)
            || wordOverlapOk (normalizeText sample) (normalizeText ua))) ∧
    gradeQuestion saBoundary (.str "mitochondria energy zzzz qqqq") = true ∧
    gradeQuestion saBoundary (.str "mitochondria zzzz qqqq wwww") = false := by
  refine ⟨fun qt sample kp ua hua hsa h10 => ?_, by decide, by decide⟩
  rw [gradeShortAnswer_eq_or qt sample kp ua hua hsa h10, Bool.or_comm]

/-- Witness for C1: the hypothesized part applied at a concrete
submission. -/
theorem short_answer_two_paths_witness :
    gradeQuestion (.short_answer "Q" "alpha beta gamma" "alpha, beta")
      (.str "alpha delta epsilon")
      = (hasKeyPoints "alpha, beta" (normalizeText "alpha delta epsilon")
          || wordOverlapOk (normalizeText "alpha beta gamma")
              (normalizeText "alpha delta epsilon")) :=
  short_answer_two_paths.1 "Q" "alpha beta gamma" "alpha, beta" "alpha delta epsilon"
    (by decide) (by decide) (by decide)

/-- C10: when the stored key-points text yields no fragments (it is
empty, has no separator, or every stripped fragment has length ≤ 3), the
key-point path is `false` — the 30% requirement is not vacuously
satisfied over zero fragments — so a submission of (normalized) length
≥ 10 is graded correct iff the word-overlap path succeeds. -/
theorem empty_key_points_overlap_only (qt sample kp ua : String)
    (hkp : keyPointList kp = []) (hua : ua ≠ "") (hsa : sample ≠ "")
    (h10 : 10 ≤ (normalizeText ua).length) :
    hasKeyPoints kp (normalizeText ua) = false ∧
    gradeQuestion (.short_answer qt sample kp) (.str ua)
      = wordOverlapOk (normalizeText sample) (normalizeText ua) := by
  have hfalse : hasKeyPoints kp (normalizeText ua) = false := by
    unfold hasKeyPoints
    rw [hkp]
    rfl
  refine ⟨hfalse, ?_⟩
  rw [gradeShortAnswer_eq_or qt sample kp ua hua hsa h10, hfalse, Bool.or_false]

/-- Witness for C10: a key-points text with a separator but in which
every fragment is short yields no key points, and the concrete
submission is graded by word overlap alone. -/
theorem empty_key_points_overlap_only_witness :
    hasKeyPoints "ab, cd, ef" (normalizeText "the powerhouse of the cell") = false ∧
    gradeQuestion (.short_answer "Q" "cell energy" "ab, cd, ef")
      (.str "the powerhouse of the cell")
      = wordOverlapOk (normalizeText "cell energy")
          (normalizeText "the powerhouse of the cell") :=
  empty_key_points_overlap_only "Q" "cell energy" "ab, cd, ef"
    "the powerhouse of the cell" (by decide) (by decide) (by decide) (by decide)

/-- Shared helper: folding submissions preserves the question list,
accumulates attempts in order, and (once at least one submission has
happened) keeps `best_score` equal to the maximum percentage over the
accumulated history. -/
theorem submitFold_invariant (subs : List ((Nat → PyValue) × String)) :
    ∀ e : ExamData,
      (submitFold e subs).questions = e.questions ∧
      (submitFold e subs).attempts.getD []
        = e.attempts.getD [] ++ subs.map (fun s => attemptOf e.questions s.1 s.2) ∧
      (subs ≠ [] → (submitFold e subs).best_score
        = some (maxPercentage (e.attempts.getD []
            ++ subs.map (fun s => attemptOf e.questions s.1 s.2)))) := by
  induction subs with
  | nil =>
    intro e
    exact ⟨rfl, by simp [submitFold], fun h => absurd rfl h⟩
  | cons s rest ih =>
    intro e
    have hstep : submitFold e (s :: rest) = submitFold ((submitExam e s.1 s.2).1) rest := rfl
    obtain ⟨ihq, iha, ihb⟩ := ih ((submitExam e s.1 s.2).1)
    have hq1 : (submitExam e s.1 s.2).1.questions = e.questions := rfl
    have ha1 : (submitExam e s.1 s.2).1.attempts.getD []
        = e.attempts.getD [] ++ [attemptOf e.questions s.1 s.2] := rfl
    refine ⟨by rw [hstep, ihq, hq1], ?_, ?_⟩
    · rw [hstep, iha, ha1, hq1]
      simp
    · intro _
      cases rest with
      | nil =>
        have : submitFold e [s] = (submitExam e s.1 s.2).1 := rfl
        rw [this, submitExam_best_score]
        simp
      | cons r rest2 =>
        rw [hstep, ihb (by simp), ha1, hq1]
        simp

/-- C3: starting from an exam with no recorded attempts, after any
non-empty sequence of k submissions (with no reset in between) the
persisted `best_score` is the maximum of the k submitted percentages
(`List.foldl max 0` computes the maximum of the non-empty percentage
list). -/
theorem best_score_is_max (e : ExamData) (subs : List ((Nat → PyValue) × String))
    (h0 : e.attempts.getD [] = []) (hk : subs ≠ []) :
    (submitFold e subs).best_score
      = some ((subs.map (fun s =>
          examPercentage (correctCount e.questions s.1) e.questions.length)).foldl max 0) := by
  obtain ⟨-, -, hb⟩ := submitFold_invariant subs e
  rw [hb hk, h0, List.nil_append]
  congr 1
  unfold maxPercentage
  rw [List.map_map]
  rfl

/-- Witness for C3: two concrete submissions against the 9-question exam. -/
theorem best_score_is_max_witness :
    (submitFold exam9 [(ans7, "t1"), (fun _ => PyValue.none, "t2")]).best_score
      = some (([(ans7, "t1"), (fun _ => PyValue.none, "t2")].map (fun s =>
          examPercentage (correctCount exam9.questions s.1)
            exam9.questions.length)).foldl max 0) :=
  best_score_is_max exam9 [(ans7, "t1"), (fun _ => PyValue.none, "t2")] rfl (by simp)

set_option maxRecDepth 100000

/-- Well-formedness of a produced multiple-choice record: non-empty
question text, option letters exactly `A`–`D` (hence exactly 4 options),
and a one-character correct letter. -/
def mcWellFormed : Question → Prop
  | .multiple_choice qt opts corr _ =>
    qt ≠ "" ∧ opts.map Prod.fst = ['A', 'B', 'C', 'D'] ∧ corr.length = 1
  | _ => False

theorem optCount_four {st : MCAcc} (h : st.optCount = 4) :
    st.options.map Prod.fst = ['A', 'B', 'C', 'D'] := by
  rcases st with ⟨oa, ob, oc, od, co, ex⟩
  cases oa <;> cases ob <;> cases oc <;> cases od <;>
    simp_all [MCAcc.optCount, MCAcc.options]

/-- A model response whose `CORRECT:` payload starts with `X`, a letter
that is not among the four option letters; the parser accepts it. -/
def mcBadCorrectText : String :=
  "intro\nQ: Pick one.\nA) one\nB) two\nC) three\nD) four\nCORRECT: X marks the spot\n"

/-- C7 counterexample: the parser accepts a question whose correct letter
(`"X"`, the first character of the uppercased `CORRECT:` payload) is not
drawn from the option set — membership of the correct letter in the
options is never checked. -/
theorem mc_correct_letter_counterexample :
    parseMultipleChoice mcBadCorrectText
      = [.multiple_choice "Pick one."
          [('A', "one"), ('B', "two"), ('C', "three"), ('D', "four")] "X" ""] ∧
    "X" ∉ (([('A', "one"), ('B', "two"), ('C', "three"), ('D', "four")] :
        List (Char × String)).map fun p => String.mk [p.1]) := by
  exact ⟨by decide, by decide⟩

/-- C7 (amended): every multiple-choice record produced by the parser has
non-empty question text, exactly 4 options whose letters are exactly
`A`–`D`, and a one-character correct letter — the first character of the
stripped, uppercased `CORRECT:` payload, which need *not* be one of the
option letters. -/
theorem mc_parser_invariant (t : String) (q : Question)
    (hq : q ∈ parseMultipleChoice t) : mcWellFormed q := by
  rw [parseMultipleChoice, List.mem_filterMap] at hq
  obtain ⟨s, _, hps⟩ := hq
  unfold parseMCSection at hps
  split at hps
  · exact absurd hps (by simp)
  · split at hps
    · exact absurd hps (by simp)
    · split at hps
      · dsimp only at hps
        split at hps
        · rename_i st hst c hc hcond
          obtain ⟨hqt, hcount⟩ := hcond
          cases hps
          exact ⟨hqt, optCount_four hcount, rfl⟩
        · exact absurd hps (by simp)
      · exact absurd hps (by simp)

/-- Witness for C7 (amended): a well-formed response block parses to a
record satisfying the invariant. -/
theorem mc_parser_invariant_witness :
    mcWellFormed (.multiple_choice "What is two plus two?"
      [('A', "three"), ('B', "four"), ('C', "five"), ('D', "six")] "B"
      "basic arithmetic") :=
  mc_parser_invariant
    "Intro.\nQ: What is two plus two?\nA) three\nB) four\nC) five\nD) six\nCORRECT: B\nEXPLANATION: basic arithmetic\n"
    (.multiple_choice "What is two plus two?"
      [('A', "three"), ('B', "four"), ('C', "five"), ('D', "six")] "B"
      "basic arithmetic")
    (by decide)

theorem length_filterMap_eq_countP {α β : Type} (f : α → Option β) (l : List α) :
    (l.filterMap f).length = l.countP (fun a => (f a).isSome) := by
  induction l with
  | nil => rfl
  | cons x xs ih =>
    cases hfx : f x <;>
      simp [List.filterMap_cons, hfx, List.countP_cons, ih]

/-- A model response with two well-formed question blocks and one
malformed block (no options), plus leading noise. -/
def mixedDemoText : String :=
  "noise before\nQ: First good?\nA) a\nB) b\nC) c\nD) d\nCORRECT: A\n\nQ: Malformed, no options here\njust text\n\nQ: Second good?\nA) w\nB) x\nC) y\nD) z\nCORRECT: D\n"

/-- A well-formed question block placed at the very beginning of the
text, with no preceding newline. -/
def topQText : String := "Q: Starts at top?\nA) a\nB) b\nC) c\nD) d\nCORRECT: A\n"

/-- C8 counterexample: the split marker is the regex `\n\s*Q:\s*`, which
requires a *preceding newline*; a well-formed question block that starts
at the very first character of the text is therefore discarded together
with the preamble (0 records instead of the claimed 1), while the same
text preceded by a newline yields the question. -/
theorem parser_top_block_counterexample :
    parseMultipleChoice topQText = [] ∧
    parseMultipleChoice (String.mk ('\n' :: topQText.data))
      = [.multiple_choice "Starts at top?"
          [('A', "a"), ('B', "b"), ('C', "c"), ('D', "d")] "A" ""] := by
  exact ⟨by decide, by decide⟩

/-- C8 (amended): the parsers are total functions (they never raise);
they split the text on `Q:` markers *preceded by a newline* (tolerant of
surrounding whitespace), discard everything before the first such marker
as preamble — including a question block that starts at the very
beginning of the text — silently drop malformed sections, and return
exactly one record per well-formed section: for each question type the
number of records equals the number of accepted sections, and the
concrete text with 2 well-formed and 1 malformed block yields exactly 2
records. -/
theorem parser_graceful_degradation :
    (∀ t : String, (parseMultipleChoice t).length
      = (splitQSections t).tail.countP (fun s => (parseMCSection s).isSome)) ∧
    (∀ t : String, (parseTrueFalse t).length
      = (splitQSections t).tail.countP (fun s => (parseTFSection s).isSome)) ∧
    (∀ t : String, (parseShortAnswer t).length
      = (splitQSections t).tail.countP (fun s => (parseSASection s).isSome)) ∧
    (parseMultipleChoice mixedDemoText).length = 2 := by
  refine ⟨fun t => ?_, fun t => ?_, fun t => ?_, by decide⟩
  · exact length_filterMap_eq_countP parseMCSection (splitQSections t).tail
  · exact length_filterMap_eq_countP parseTFSection (splitQSections t).tail
  · exact length_filterMap_eq_countP parseSASection (splitQSections t).tail

end StudyFlow
